import Mathlib

/-!
Verification of the credential & session security subsystem of the
Org_Lemah mail portal (src/index.js, the capped-iteration variant).

The JavaScript source is shallowly embedded as follows:

* machine numbers become `Int`/`Nat`; JavaScript values that may be
  `undefined`/`null`/`NaN` become `Option Int` (`none` stands for any
  non-finite input, so `safeInt` is `Option.getD`);
* byte arrays (`Uint8Array`) become `List Nat` with every entry `< 256`;
* the external Web Crypto primitives (`crypto.subtle.digest`,
  `crypto.subtle.deriveBits`) are opaque collaborators, so they appear as
  explicit function parameters (`sha256`-style digests as
  `digest : String → String` for the composite
  `token ↦ sha256Base64Url(utf8(token))`, and PBKDF2-SHA-256 `deriveBits`
  as `kdf : String → List Nat → Int → List Nat`); everything the
  repository itself computes around them (iteration clamping, the
  iteration ceiling check, base64url encoding, comparisons, SQL row
  manipulation) is embedded concretely;
* the D1/SQLite store becomes an explicit `DB` record of row lists;
  `SELECT ... WHERE` with `.first()` becomes `List.find?`, `INSERT`
  appends a row, `DELETE ... WHERE` filters, `UPDATE ... WHERE` maps;
  the store's UNIQUE constraint on users is modelled by the membership
  test that makes the insert fail exactly when a duplicate exists;
* `nowSec()` (the clock) and `crypto.getRandomValues` (randomness) are
  passed in as explicit arguments;
* fallible handler code returns `Except String α`, the error being the
  JSON error message the handler would send.
-/

namespace Mael

/-! ### Hashing constants and iteration policy (src/index.js lines 9-11, 64-71) -/

def PBKDF2_MAX_ITERS : Int := 100000

def PBKDF2_MIN_ITERS : Int := 10000

/-- JavaScript `safeInt(v, fallback)`: `Number(v)` when finite, else the fallback.
`none` models an absent or non-numeric input. -/
def safeInt (v : Option Int) (fallback : Int) : Int :=
  v.getD fallback

/-- The clamp `clampPbkdf2Iters(n)` restricts into `[PBKDF2_MIN_ITERS, PBKDF2_MAX_ITERS]`,
defaulting a non-numeric input to the maximum. -/
def clampPbkdf2Iters (n : Option Int) : Int :=
  min PBKDF2_MAX_ITERS (max PBKDF2_MIN_ITERS (safeInt n PBKDF2_MAX_ITERS))

/-- Config lookup `pbkdf2Iters(env)` = `clampPbkdf2Iters(env.PBKDF2_ITERS ?? PBKDF2_MAX_ITERS)`.
Both the `??` default and `safeInt`'s fallback are `PBKDF2_MAX_ITERS`, so an
unset or non-numeric `PBKDF2_ITERS` (modelled by `none`) yields the maximum. -/
def pbkdf2Iters (envIters : Option Int) : Int :=
  clampPbkdf2Iters (some (safeInt envIters PBKDF2_MAX_ITERS))

/-! ### base64url codec (src/index.js lines 73-91)

`base64Url` is `btoa` (standard base64 of a byte string) followed by the
textual replacements `+` to `-`, `/` to `_` and the removal of all trailing
`=` (the regex `/=+$/`).  `base64UrlToBytes` maps `-` back to `+`, `_` back
to `/`, restores `=` padding to a multiple of four and applies `atob`.
`atob` here models the platform's forgiving-base64 decoder on
whitespace-free input: with a length divisible by four it removes up to two
trailing `=`, then rejects any remaining character outside the base64
alphabet (and a leftover length of one); it is `none` where the platform
function would throw. -/

def b64Alphabet : List Char :=
  ['A', 'B', 'C', 'D', 'E', 'F', 'G', 'H', 'I', 'J', 'K', 'L', 'M',
   'N', 'O', 'P', 'Q', 'R', 'S', 'T', 'U', 'V', 'W', 'X', 'Y', 'Z',
   'a', 'b', 'c', 'd', 'e', 'f', 'g', 'h', 'i', 'j', 'k', 'l', 'm',
   'n', 'o', 'p', 'q', 'r', 's', 't', 'u', 'v', 'w', 'x', 'y', 'z',
   '0', '1', '2', '3', '4', '5', '6', '7', '8', '9', '+', '/']

/-- The base64 character of a sextet value (only used with `n < 64`). -/
def sextetChar (n : Nat) : Char :=
  b64Alphabet.getD n 'A'

/-- The sextet value of a base64 character; `none` off the alphabet. -/
def charSextet (c : Char) : Option Nat :=
  b64Alphabet.findIdx? (fun a => a == c)

/-- Standard `btoa` on a byte string: three bytes to four characters, a final byte
padded with `==`, two final bytes padded with `=`. -/
def btoa : List Nat → List Char
  | [] => []
  | [a] =>
      [sextetChar (a / 4), sextetChar (a % 4 * 16), '=', '=']
  | [a, b] =>
      [sextetChar (a / 4), sextetChar (a % 4 * 16 + b / 16),
       sextetChar (b % 16 * 4), '=']
  | a :: b :: c :: rest =>
      sextetChar (a / 4) :: sextetChar (a % 4 * 16 + b / 16) ::
      sextetChar (b % 16 * 4 + c / 64) :: sextetChar (c % 64) :: btoa rest

/-- The encoder's replacement `+` to `-`, `/` to `_`. -/
def toUrlSafeChar (c : Char) : Char :=
  if c = '+' then '-' else if c = '/' then '_' else c

/-- The decoder's replacement `-` to `+`, `_` to `/`. -/
def fromUrlSafeChar (c : Char) : Char :=
  if c = '-' then '+' else if c = '_' then '/' else c

/-- Removal of every trailing `=` (the regex `/=+$/`). -/
def stripEqSuffix (cs : List Char) : List Char :=
  (cs.reverse.dropWhile (fun c => c == '=')).reverse

/-- Encoder `base64Url(bytes)` (src/index.js lines 73-77). -/
def base64Url (bytes : List Nat) : String :=
  ⟨stripEqSuffix ((btoa bytes).map toUrlSafeChar)⟩

/-- Forgiving-base64 padding removal: at most two leading `=` of the
reversed text. -/
def dropUpTo2Eq : List Char → List Char
  | [] => []
  | [c1] => if c1 = '=' then [] else [c1]
  | c1 :: c2 :: r =>
      if c1 = '=' then (if c2 = '=' then r else c2 :: r) else c1 :: c2 :: r

def dropAtobPadding (cs : List Char) : List Char :=
  if cs.length % 4 = 0 then (dropUpTo2Eq cs.reverse).reverse else cs

/-- Four base64 characters to three bytes, with a final pair giving one
byte and a final triple two. -/
def decodeChunks : List Char → Option (List Nat)
  | [] => some []
  | [_] => none
  | [c1, c2] => do
      let n1 ← charSextet c1
      let n2 ← charSextet c2
      some [n1 * 4 + n2 / 16]
  | [c1, c2, c3] => do
      let n1 ← charSextet c1
      let n2 ← charSextet c2
      let n3 ← charSextet c3
      some [n1 * 4 + n2 / 16, n2 % 16 * 16 + n3 / 4]
  | c1 :: c2 :: c3 :: c4 :: rest => do
      let n1 ← charSextet c1
      let n2 ← charSextet c2
      let n3 ← charSextet c3
      let n4 ← charSextet c4
      let tail ← decodeChunks rest
      some ((n1 * 4 + n2 / 16) :: (n2 % 16 * 16 + n3 / 4) ::
            (n3 % 4 * 64 + n4) :: tail)

/-- The platform's `atob` on whitespace-free input. -/
def atobBytes (cs : List Char) : Option (List Nat) :=
  decodeChunks (dropAtobPadding cs)

/-- Decoder `base64UrlToBytes(b64url)` (src/index.js lines 79-86); `none` where the
inner `atob` would throw. -/
def base64UrlToBytes (s : String) : Option (List Nat) :=
  let b64 := s.data.map fromUrlSafeChar
  atobBytes (b64 ++ List.replicate ((4 - b64.length % 4) % 4) '=')

/-! ### Credential hasher (src/index.js lines 93-123, 1536-1539)

`kdf` stands for the external PBKDF2-SHA-256 `deriveBits` collaborator:
from a password, a salt and an iteration count, 256 derived bits as 32
bytes.  The repository's own wrapper checks the Workers iteration ceiling
and encodes the derived bits as base64url. -/

/-- Hasher `pbkdf2HashBase64Url(password, saltBytes, iterations)`: throws
`NotSupportedError` above the ceiling, else the base64url encoding of the
derived bits. -/
def pbkdf2HashBase64Url (kdf : String → List Nat → Int → List Nat)
    (password : String) (saltBytes : List Nat) (iterations : Int) :
    Except String String :=
  if PBKDF2_MAX_ITERS < iterations then
    Except.error "NotSupportedError: PBKDF2 iterations too high for Workers"
  else
    Except.ok (base64Url (kdf password saltBytes iterations))

/-- The login handler's verification step (src/index.js lines 1536-1539):
recompute the hash from the presented password with the stored salt and
iteration count and compare it byte-exactly (string equality of the
base64url forms) with the stored hash. -/
def verifyLoginPassword (kdf : String → List Nat → Int → List Nat)
    (pw : String) (saltBytes : List Nat) (iterations : Int)
    (storedHash : String) : Except String Bool :=
  (pbkdf2HashBase64Url kdf pw saltBytes iterations).map
    (fun h => h == storedHash)

/-! ### String normalization used by the handlers

ASCII models of JavaScript's `String.prototype.trim` and `toLowerCase`,
written over the character list so that they evaluate by `decide`. -/

def isJsSpace (c : Char) : Bool :=
  c == ' ' || c == '\t' || c == '\n' || c == '\r' || c == '\x0b' || c == '\x0c'

def jsTrim (s : String) : String :=
  ⟨((s.data.dropWhile isJsSpace).reverse.dropWhile isJsSpace).reverse⟩

def asciiToLower (c : Char) : Char :=
  if 'A' ≤ c ∧ c ≤ 'Z' then Char.ofNat (c.toNat + 32) else c

def jsToLower (s : String) : String :=
  ⟨s.data.map asciiToLower⟩

/-- The signup username check `^[a-z0-9_]{3,24}$` (src/index.js line 1462). -/
def validUsername (s : String) : Bool :=
  3 ≤ s.length && s.length ≤ 24 &&
    s.data.all (fun c => ('a' ≤ c && c ≤ 'z') || ('0' ≤ c && c ≤ '9') || c == '_')

/-- The email check `^[^\s@]+@[^\s@]+\.[^\s@]+$` (src/index.js lines 1464,
1564): no whitespace, exactly one `@` with a nonempty local part, and after
the `@` a dot at an interior position (so that both `[^\s@]+` around the
literal dot can be nonempty). -/
def validEmail (s : String) : Bool :=
  let cs := s.data
  cs.all (fun c => !isJsSpace c) &&
  cs.countP (fun c => c == '@') == 1 &&
  (match cs with
   | [] => false
   | c :: _ => !(c == '@')) &&
  ((((cs.dropWhile (fun c => !(c == '@'))).tail).drop 1).dropLast.any
    (fun c => c == '.'))

/-! ### Data model (spec section 3; table shapes per the SQL in src/index.js) -/

structure UserRow where
  id : String
  username : String
  email : String
  pass_salt : String
  pass_hash : String
  pass_iters : Option Int
  role : String
  alias_limit : Int
  disabled : Bool
  created_at : Int
  deriving Repr, DecidableEq

structure SessionRow where
  token_hash : String
  user_id : String
  expires_at : Int
  created_at : Int
  deriving Repr, DecidableEq

structure ResetTokenRow where
  token_hash : String
  user_id : String
  expires_at : Int
  created_at : Int
  deriving Repr, DecidableEq

structure DB where
  users : List UserRow
  sessions : List SessionRow
  reset_tokens : List ResetTokenRow
  deriving Repr, DecidableEq

/-! ### Session manager (src/index.js lines 1332-1377)

`digest` stands for the composite `token ↦ sha256Base64Url(utf8(token))`
whose inner SHA-256 is the external Web Crypto collaborator. -/

/-- Resolution `getUserBySession` (lines 1332-1351): the cookie's token is hashed, a
session row with that hash and `expires_at > now` is joined to its user,
and a disabled user yields `null`. -/
def getUserBySession (digest : String → String) (db : DB)
    (cookieToken : Option String) (now : Int) : Option UserRow :=
  match cookieToken with
  | none => none
  | some token =>
      let tokenHash := digest token
      match (db.sessions.find? (fun s =>
              s.token_hash == tokenHash && decide (now < s.expires_at))).bind
            (fun s => db.users.find? (fun u => u.id == s.user_id)) with
      | none => none
      | some u => if u.disabled then none else some u

/-- Creation `createSession` (lines 1353-1367): the raw token is the base64url of 32
random bytes (passed in as `tokenBytes`); its digest is inserted with
`expires_at = now + ttlSeconds`, and the raw token is returned. -/
def createSession (digest : String → String) (db : DB)
    (tokenBytes : List Nat) (userId : String) (ttlSeconds : Int)
    (now : Int) : DB × String :=
  let token := base64Url tokenBytes
  let tokenHash := digest token
  ({ db with sessions := db.sessions ++
      [{ token_hash := tokenHash, user_id := userId,
         expires_at := now + ttlSeconds, created_at := now }] }, token)

/-- Deletion `destroySession` (lines 1369-1377): without a cookie it does nothing;
otherwise it deletes every session row whose hash matches the token's. -/
def destroySession (digest : String → String) (db : DB)
    (cookieToken : Option String) : DB :=
  match cookieToken with
  | none => db
  | some token =>
      let tokenHash := digest token
      { db with sessions := db.sessions.filter (fun s => !(s.token_hash == tokenHash)) }

/-- The admin PATCH handler's `UPDATE users SET disabled = ? WHERE id = ?`
(src/index.js lines 1790-1819, restricted to the `disabled` field). -/
def adminSetDisabled (db : DB) (userId : String) (disabled : Bool) : DB :=
  { db with users := db.users.map (fun u =>
      if u.id == userId then { u with disabled := disabled } else u) }

/-! ### Reset-flow manager (src/index.js lines 1560-1632) -/

/-- The `/api/auth/reset/request` handler (lines 1560-1590).  The error case
is the 400 for a malformed email; every other outcome is the same
`json({ ok: true })`, with a reset-token row inserted only when the user
exists and is enabled.  The notification send is fire-and-forget and not
part of the response. -/
def requestReset (digest : String → String) (db : DB) (emailInput : String)
    (tokenBytes : List Nat) (envResetTtl : Option Int) (now : Int) :
    Except String DB :=
  let email := jsToLower (jsTrim emailInput)
  if !validEmail email then Except.error "Email tidak valid"
  else
    match db.users.find? (fun u => u.email == email) with
    | none => Except.ok db
    | some user =>
        if user.disabled then Except.ok db
        else
          let token := base64Url tokenBytes
          let tokenHash := digest token
          let ttl := safeInt envResetTtl 3600
          Except.ok { db with reset_tokens := db.reset_tokens ++
            [{ token_hash := tokenHash, user_id := user.id,
               expires_at := now + ttl, created_at := now }] }

/-- The `/api/auth/reset/confirm` handler (lines 1592-1632): trims the
token, requires an eight-character password, looks the token's digest up,
fails with `Token invalid/expired` when the row is absent or
`expires_at <= now`, and otherwise rewrites the user's salt and hash
(plus `pass_iters` when the schema has the column) and deletes the
token row. -/
def confirmReset (digest : String → String)
    (kdf : String → List Nat → Int → List Nat) (envIters : Option Int)
    (hasPassIters : Bool) (db : DB) (tokenInput newPw : String)
    (salt : List Nat) (now : Int) : Except String DB :=
  let token := jsTrim tokenInput
  if token == "" then Except.error "Token wajib"
  else if newPw.length < 8 then Except.error "Password minimal 8 karakter"
  else
    let tokenHash := digest token
    match db.reset_tokens.find? (fun r => r.token_hash == tokenHash) with
    | none => Except.error "Token invalid/expired"
    | some rt =>
        if rt.expires_at ≤ now then Except.error "Token invalid/expired"
        else
          let iters := pbkdf2Iters envIters
          let pass_salt := base64Url salt
          match pbkdf2HashBase64Url kdf newPw salt iters with
          | Except.error e => Except.error e
          | Except.ok pass_hash =>
              Except.ok { db with
                users := db.users.map (fun u =>
                  if u.id == rt.user_id then
                    if hasPassIters then
                      { u with pass_salt := pass_salt, pass_hash := pass_hash,
                               pass_iters := some iters }
                    else
                      { u with pass_salt := pass_salt, pass_hash := pass_hash }
                  else u),
                reset_tokens := db.reset_tokens.filter
                  (fun r => !(r.token_hash == tokenHash)) }

/-! ### Signup (src/index.js lines 1454-1515) -/

/-- The `/api/auth/signup` handler: validation, fresh salt and hash, the
`COUNT(*)`-before-insert role assignment (`admin` exactly for an empty
users table), the UNIQUE-constrained insert, and a session for the new
user.  Randomness (`salt`, `sessionTokenBytes`, `newId`) and the clock
(`now`) are explicit arguments. -/
def signup (digest : String → String)
    (kdf : String → List Nat → Int → List Nat) (envIters : Option Int)
    (hasPassIters : Bool) (envAliasLimit : Option Int)
    (envSessionTtl : Option Int) (db : DB)
    (usernameInput emailInput pw : String) (salt : List Nat)
    (newId : String) (sessionTokenBytes : List Nat) (now : Int) :
    Except String (DB × String) :=
  let username := jsToLower (jsTrim usernameInput)
  let email := jsToLower (jsTrim emailInput)
  if !validUsername username then Except.error "Username 3-24, a-z0-9_"
  else if !validEmail email then Except.error "Email tidak valid"
  else if pw.length < 8 then Except.error "Password minimal 8 karakter"
  else
    let iters := pbkdf2Iters envIters
    let pass_salt := base64Url salt
    match pbkdf2HashBase64Url kdf pw salt iters with
    | Except.error e => Except.error e
    | Except.ok pass_hash =>
        let count := db.users.length
        let role := if count == 0 then "admin" else "user"
        let aliasLimit := safeInt envAliasLimit 3
        if db.users.any (fun u => u.username == username || u.email == email) then
          Except.error "Username/email sudah dipakai"
        else
          let user : UserRow :=
            { id := newId, username := username, email := email,
              pass_salt := pass_salt, pass_hash := pass_hash,
              pass_iters := if hasPassIters then some iters else none,
              role := role, alias_limit := aliasLimit, disabled := false,
              created_at := now }
          let db1 : DB := { db with users := db.users ++ [user] }
          let ttl := safeInt envSessionTtl 1209600
          let res := createSession digest db1 sessionTokenBytes newId ttl now
          Except.ok res

/-- Concrete fixtures used by the witness instantiations. -/
def aliceRow : UserRow :=
  { id := "u1", username := "alice", email := "alice@example.com",
    pass_salt := "", pass_hash := "", pass_iters := none, role := "admin",
    alias_limit := 3, disabled := false, created_at := 0 }

def bobRow : UserRow :=
  { id := "u2", username := "bob", email := "bob@example.com",
    pass_salt := "", pass_hash := "", pass_iters := none, role := "user",
    alias_limit := 3, disabled := true, created_at := 0 }

theorem charSextet_sextetChar : ∀ n < 64, charSextet (sextetChar n) = some n := by decide

theorem sextetChar_mem_of_lt : ∀ n < 64, sextetChar n ∈ b64Alphabet := by decide

theorem mem_alphabet_ne_eq : ∀ c ∈ b64Alphabet, c ≠ '=' := by decide

theorem mem_alphabet_urlchar_roundtrip : ∀ c ∈ b64Alphabet, fromUrlSafeChar (toUrlSafeChar c) = c := by decide

theorem sextetChar_mem (n : Nat) : sextetChar n ∈ b64Alphabet := by
  rcases Nat.lt_or_ge n 64 with h | h
  · exact sextetChar_mem_of_lt n h
  · have : sextetChar n = 'A' := by
      unfold sextetChar
      rw [List.getD_eq_default]
      have : b64Alphabet.length = 64 := by decide
      omega
    rw [this]; decide

theorem sextetChar_ne_eq (n : Nat) : sextetChar n ≠ '=' :=
  mem_alphabet_ne_eq _ (sextetChar_mem n)

/-- Every character `btoa` emits is a base64-alphabet character or `=`. -/
theorem btoa_chars : ∀ (b : List Nat), ∀ c ∈ btoa b, c ∈ b64Alphabet ∨ c = '='
  | [] => by simp [btoa]
  | [a] => by
      simp only [btoa, List.mem_cons, List.not_mem_nil, or_false]
      rintro c (rfl | rfl | rfl | rfl)
      · exact Or.inl (sextetChar_mem _)
      · exact Or.inl (sextetChar_mem _)
      · exact Or.inr rfl
      · exact Or.inr rfl
  | [a, b] => by
      simp only [btoa, List.mem_cons, List.not_mem_nil, or_false]
      rintro c (rfl | rfl | rfl | rfl)
      · exact Or.inl (sextetChar_mem _)
      · exact Or.inl (sextetChar_mem _)
      · exact Or.inl (sextetChar_mem _)
      · exact Or.inr rfl
  | a :: b :: c :: rest => by
      simp only [btoa, List.mem_cons]
      rintro ch (rfl | rfl | rfl | rfl | h)
      · exact Or.inl (sextetChar_mem _)
      · exact Or.inl (sextetChar_mem _)
      · exact Or.inl (sextetChar_mem _)
      · exact Or.inl (sextetChar_mem _)
      · exact btoa_chars rest ch h

theorem toUrl_beq_eq (c : Char) : (toUrlSafeChar c == '=') = (c == '=') := by
  unfold toUrlSafeChar
  by_cases h1 : c = '+'
  · subst h1; decide
  · by_cases h2 : c = '/'
    · subst h2; decide
    · simp [h1, h2]

/-- Stripping trailing padding commutes with the URL-safe replacement. -/
theorem stripEqSuffix_map_toUrl (l : List Char) :
    stripEqSuffix (l.map toUrlSafeChar) = (stripEqSuffix l).map toUrlSafeChar := by
  unfold stripEqSuffix
  rw [← List.map_reverse, List.dropWhile_map, ← List.map_reverse]
  have h : ((fun c => c == '=') ∘ toUrlSafeChar) = (fun c : Char => c == '=') := by
    funext c; exact toUrl_beq_eq c
  rw [h]

/-- Removing the trailing `=` of `x ++ t` leaves an `=`-free `x` intact. -/
theorem stripEqSuffix_append_left (x t : List Char) (hx : ∀ c ∈ x, c ≠ '=') :
    stripEqSuffix (x ++ t) = x ++ stripEqSuffix t := by
  unfold stripEqSuffix
  rw [List.reverse_append, List.dropWhile_append]
  by_cases h : (t.reverse.dropWhile (fun c => c == '=')).isEmpty
  · rw [if_pos h]
    have hx' : x.reverse.dropWhile (fun c => c == '=') = x.reverse := by
      cases hxr : x.reverse with
      | nil => simp
      | cons c r =>
          have hc : c ∈ x := by
            have : c ∈ x.reverse := by rw [hxr]; exact List.mem_cons_self c r
            simpa using this
          rw [List.dropWhile_cons]
          simp [beq_eq_false_iff_ne.mpr (hx c hc)]
    rw [hx']
    simp only [List.isEmpty_iff] at h
    rw [h]
    simp
  · rw [if_neg h]
    simp

theorem charSextet_eq {n : Nat} (h : n < 64) : charSextet (sextetChar n) = some n :=
  charSextet_sextetChar n h

theorem dropUpTo2Eq_append (u v : List Char) (hv : ∀ c ∈ v, c ≠ '=') :
    dropUpTo2Eq (u ++ v) = dropUpTo2Eq u ++ v := by
  match u with
  | [] =>
      simp only [List.nil_append, dropUpTo2Eq]
      match v with
      | [] => rfl
      | [c1] =>
          simp only [dropUpTo2Eq, if_neg (hv c1 (by simp))]
      | c1 :: c2 :: r =>
          simp only [dropUpTo2Eq, if_neg (hv c1 (by simp))]
  | [c1] =>
      match v with
      | [] => simp [dropUpTo2Eq]
      | c2 :: r =>
          simp only [List.cons_append, List.nil_append, dropUpTo2Eq,
            if_neg (hv c2 (by simp))]
          by_cases h1 : c1 = '='
          · simp [h1]
          · simp [h1]
  | c1 :: c2 :: r =>
      simp only [List.cons_append, dropUpTo2Eq]
      by_cases h1 : c1 = '='
      · by_cases h2 : c2 = '='
        · simp [h1, h2]
        · simp [h1, h2]
      · simp [h1]

theorem dropAtobPadding_append_chunk (x Z : List Char) (hx : ∀ c ∈ x, c ≠ '=')
    (hxlen : x.length % 4 = 0) (hZ : Z.length % 4 = 0) :
    dropAtobPadding (x ++ Z) = x ++ dropAtobPadding Z := by
  unfold dropAtobPadding
  rw [List.length_append]
  rw [if_pos (by omega), if_pos hZ, List.reverse_append]
  rw [dropUpTo2Eq_append _ _ (fun c hc => hx c (by simpa using hc))]
  rw [List.reverse_append, List.reverse_reverse]


/-- Decoding the stripped-and-repadded `btoa` output recovers the bytes. -/
theorem roundtrip_aux : ∀ (b : List Nat), (∀ n ∈ b, n < 256) →
    atobBytes (stripEqSuffix (btoa b) ++
      List.replicate ((4 - (stripEqSuffix (btoa b)).length % 4) % 4) '=') = some b
  | [], _ => by decide
  | [a], hb => by
      have ha : a < 256 := hb a (by simp)
      have hs2 : (sextetChar (a % 4 * 16) == '=') = false :=
        beq_eq_false_iff_ne.mpr (sextetChar_ne_eq _)
      have hstrip : stripEqSuffix (btoa [a]) =
          [sextetChar (a / 4), sextetChar (a % 4 * 16)] := by
        simp [btoa, stripEqSuffix, List.dropWhile_cons, hs2]
      rw [hstrip]
      simp only [List.length_cons, List.length_nil]
      norm_num [List.replicate]
      unfold atobBytes dropAtobPadding
      norm_num [dropUpTo2Eq]
      simp only [decodeChunks, charSextet_eq (by omega : a / 4 < 64),
        charSextet_eq (by omega : a % 4 * 16 < 64), Option.some_bind, Option.bind_some]
      show some [a / 4 * 4 + a % 4 * 16 / 16] = some [a]
      have : a / 4 * 4 + a % 4 * 16 / 16 = a := by omega
      rw [this]
  | [a, b], hb => by
      have ha : a < 256 := hb a (by simp)
      have hb2 : b < 256 := hb b (by simp)
      have hne : sextetChar (b % 16 * 4) ≠ '=' := sextetChar_ne_eq _
      have hs3 : (sextetChar (b % 16 * 4) == '=') = false :=
        beq_eq_false_iff_ne.mpr hne
      have hstrip : stripEqSuffix (btoa [a, b]) =
          [sextetChar (a / 4), sextetChar (a % 4 * 16 + b / 16),
           sextetChar (b % 16 * 4)] := by
        simp [btoa, stripEqSuffix, List.dropWhile_cons, hs3]
      rw [hstrip]
      simp only [List.length_cons, List.length_nil]
      norm_num [List.replicate]
      unfold atobBytes dropAtobPadding
      norm_num [dropUpTo2Eq, hne]
      simp only [decodeChunks, charSextet_eq (by omega : a / 4 < 64),
        charSextet_eq (by omega : a % 4 * 16 + b / 16 < 64),
        charSextet_eq (by omega : b % 16 * 4 < 64)]
      show some [a / 4 * 4 + (a % 4 * 16 + b / 16) / 16,
                 (a % 4 * 16 + b / 16) % 16 * 16 + b % 16 * 4 / 4] = some [a, b]
      have e1 : a / 4 * 4 + (a % 4 * 16 + b / 16) / 16 = a := by omega
      have e2 : (a % 4 * 16 + b / 16) % 16 * 16 + b % 16 * 4 / 4 = b := by omega
      rw [e1, e2]
  | a :: b :: c :: rest, hb => by
      have ha : a < 256 := hb a (by simp)
      have hb2 : b < 256 := hb b (by simp)
      have hc : c < 256 := hb c (by simp)
      have hrest : ∀ n ∈ rest, n < 256 := fun n hn => hb n (by simp [hn])
      have hchunk : ∀ ch ∈ [sextetChar (a / 4), sextetChar (a % 4 * 16 + b / 16),
          sextetChar (b % 16 * 4 + c / 64), sextetChar (c % 64)], ch ≠ '=' := by
        intro ch hch
        simp only [List.mem_cons, List.not_mem_nil, or_false] at hch
        rcases hch with rfl | rfl | rfl | rfl <;> exact sextetChar_ne_eq _
      have h1 : btoa (a :: b :: c :: rest) =
          [sextetChar (a / 4), sextetChar (a % 4 * 16 + b / 16),
           sextetChar (b % 16 * 4 + c / 64), sextetChar (c % 64)] ++ btoa rest := by
        simp [btoa]
      rw [h1, stripEqSuffix_append_left _ _ hchunk]
      have hlen : (([sextetChar (a / 4), sextetChar (a % 4 * 16 + b / 16),
          sextetChar (b % 16 * 4 + c / 64), sextetChar (c % 64)] ++
          stripEqSuffix (btoa rest)).length) % 4 =
          (stripEqSuffix (btoa rest)).length % 4 := by
        simp only [List.length_append, List.length_cons, List.length_nil]
        omega
      rw [hlen, List.append_assoc]
      unfold atobBytes
      rw [dropAtobPadding_append_chunk _ _ hchunk (by simp)
        (by simp only [List.length_append, List.length_replicate]; omega)]
      have ih := roundtrip_aux rest hrest
      unfold atobBytes at ih
      simp only [List.cons_append, List.nil_append]
      simp only [decodeChunks, charSextet_eq (by omega : a / 4 < 64),
        charSextet_eq (by omega : a % 4 * 16 + b / 16 < 64),
        charSextet_eq (by omega : b % 16 * 4 + c / 64 < 64),
        charSextet_eq (by omega : c % 64 < 64), Option.some_bind, ih]
      show some ((a / 4 * 4 + (a % 4 * 16 + b / 16) / 16) ::
          ((a % 4 * 16 + b / 16) % 16 * 16 + (b % 16 * 4 + c / 64) / 4) ::
          ((b % 16 * 4 + c / 64) % 4 * 64 + c % 64) :: rest) =
        some (a :: b :: c :: rest)
      have e1 : a / 4 * 4 + (a % 4 * 16 + b / 16) / 16 = a := by omega
      have e2 : (a % 4 * 16 + b / 16) % 16 * 16 + (b % 16 * 4 + c / 64) / 4 = b := by omega
      have e3 : (b % 16 * 4 + c / 64) % 4 * 64 + c % 64 = c := by omega
      rw [e1, e2, e3]


/-- C10 core: decoding an encoded byte array recovers it exactly. -/
theorem base64UrlToBytes_base64Url (b : List Nat) (hb : ∀ n ∈ b, n < 256) :
    base64UrlToBytes (base64Url b) = some b := by
  have hmem : ∀ c ∈ stripEqSuffix (btoa b), fromUrlSafeChar (toUrlSafeChar c) = c := by
    intro c hc
    have hcb : c ∈ btoa b := by
      have h1 : c ∈ (btoa b).reverse.dropWhile (fun x => x == '=') := by
        have : c ∈ ((btoa b).reverse.dropWhile (fun x => x == '=')).reverse := hc
        simpa using this
      have h2 : c ∈ (btoa b).reverse :=
        (List.dropWhile_sublist (fun x => x == '=')).mem h1
      simpa using h2
    rcases btoa_chars b c hcb with h | rfl
    · exact mem_alphabet_urlchar_roundtrip c h
    · decide
  have hid : (stripEqSuffix (btoa b)).map (fun c => fromUrlSafeChar (toUrlSafeChar c)) =
      stripEqSuffix (btoa b) := by
    have h2 := List.map_congr_left hmem
    simpa using h2
  simp only [base64Url, base64UrlToBytes]
  rw [stripEqSuffix_map_toUrl]
  show atobBytes
      ((((stripEqSuffix (btoa b)).map toUrlSafeChar).map fromUrlSafeChar) ++
        List.replicate
          ((4 - (((stripEqSuffix (btoa b)).map toUrlSafeChar).map fromUrlSafeChar).length % 4) % 4)
          '=') = some b
  rw [List.map_map]
  show atobBytes
      (((stripEqSuffix (btoa b)).map (fun c => fromUrlSafeChar (toUrlSafeChar c))) ++
        List.replicate
          ((4 - ((stripEqSuffix (btoa b)).map (fun c => fromUrlSafeChar (toUrlSafeChar c))).length % 4) % 4)
          '=') = some b
  rw [hid]
  exact roundtrip_aux b hb

/-- Distinct byte arrays get distinct encodings. -/
theorem base64Url_inj (b1 b2 : List Nat) (h1 : ∀ n ∈ b1, n < 256)
    (h2 : ∀ n ∈ b2, n < 256) (hne : b1 ≠ b2) : base64Url b1 ≠ base64Url b2 := by
  intro h
  have e1 := base64UrlToBytes_base64Url b1 h1
  have e2 := base64UrlToBytes_base64Url b2 h2
  rw [h, e2] at e1
  exact hne (Option.some.inj e1).symm


/-- C10: URL-safe base64 round-trip: for every byte array `b`,
`base64UrlToBytes (base64Url b)` returns exactly `b` (the encoder strips
all `=` padding and maps `+`/`/` to `-`/`_`; the decoder restores the
padding and the standard alphabet before decoding). -/
theorem c10_base64url_roundtrip (b : List Nat) (hb : ∀ n ∈ b, n < 256) :
    base64UrlToBytes (base64Url b) = some b :=
  base64UrlToBytes_base64Url b hb

theorem c10_base64url_roundtrip_witness :
    base64UrlToBytes (base64Url [0, 31, 63, 127, 255, 66]) =
      some [0, 31, 63, 127, 255, 66] :=
  c10_base64url_roundtrip [0, 31, 63, 127, 255, 66] (by decide)

/-- C6: when the requested PBKDF2 iteration count exceeds the safety
ceiling of 100000, `pbkdf2HashBase64Url` fails with the configuration
error (`NotSupportedError`) instead of clamping the count. -/
theorem c6_iteration_ceiling_error (kdf : String → List Nat → Int → List Nat)
    (password : String) (saltBytes : List Nat) (iterations : Int)
    (h : PBKDF2_MAX_ITERS < iterations) :
    pbkdf2HashBase64Url kdf password saltBytes iterations =
      Except.error "NotSupportedError: PBKDF2 iterations too high for Workers" := by
  unfold pbkdf2HashBase64Url
  rw [if_pos h]

theorem c6_iteration_ceiling_error_witness :
    pbkdf2HashBase64Url (fun _ _ _ => []) "pw" [] 100001 =
      Except.error "NotSupportedError: PBKDF2 iterations too high for Workers" :=
  c6_iteration_ceiling_error (fun _ _ _ => []) "pw" [] 100001 (by decide)

/-- C1: hash/verify round-trip.  For a password, salt and an iteration
count within the configured range, verifying the password against the
stored hash derived from it succeeds (the recomputed digest equals the
stored one byte-exactly), while a different password or salt whose derived
bits differ (PBKDF2 collision-freedom, a hypothesis on the abstract
`deriveBits` collaborator) yields a mismatch. -/
theorem c1_hash_verify_roundtrip (kdf : String → List Nat → Int → List Nat)
    (pw pw2 : String) (salt salt2 : List Nat) (iterations : Int)
    (hmin : PBKDF2_MIN_ITERS ≤ iterations) (hit : iterations ≤ PBKDF2_MAX_ITERS)
    (hb1 : ∀ n ∈ kdf pw salt iterations, n < 256)
    (hb2 : ∀ n ∈ kdf pw2 salt2 iterations, n < 256)
    (hdiff : kdf pw2 salt2 iterations ≠ kdf pw salt iterations) :
    ∃ storedHash,
      pbkdf2HashBase64Url kdf pw salt iterations = Except.ok storedHash ∧
      verifyLoginPassword kdf pw salt iterations storedHash = Except.ok true ∧
      verifyLoginPassword kdf pw2 salt2 iterations storedHash = Except.ok false := by
  have hno : ¬ PBKDF2_MAX_ITERS < iterations := not_lt.mpr hit
  refine ⟨base64Url (kdf pw salt iterations), ?_, ?_, ?_⟩
  · unfold pbkdf2HashBase64Url
    rw [if_neg hno]
  · unfold verifyLoginPassword pbkdf2HashBase64Url
    rw [if_neg hno]
    simp [Except.map]
  · unfold verifyLoginPassword pbkdf2HashBase64Url
    rw [if_neg hno]
    simp only [Except.map]
    have : (base64Url (kdf pw2 salt2 iterations) ==
        base64Url (kdf pw salt iterations)) = false :=
      beq_eq_false_iff_ne.mpr (base64Url_inj _ _ hb2 hb1 hdiff)
    rw [this]

theorem c1_hash_verify_roundtrip_witness :
    ∃ storedHash,
      pbkdf2HashBase64Url (fun p _ _ => if p = "a" then [0] else [1]) "a" [] 100000 =
        Except.ok storedHash ∧
      verifyLoginPassword (fun p _ _ => if p = "a" then [0] else [1]) "a" [] 100000
        storedHash = Except.ok true ∧
      verifyLoginPassword (fun p _ _ => if p = "a" then [0] else [1]) "b" [] 100000
        storedHash = Except.ok false :=
  c1_hash_verify_roundtrip (fun p _ _ => if p = "a" then [0] else [1]) "a" "b" [] []
    100000 (by decide) (by decide) (by decide) (by decide) (by decide)


/-- Appending after a failed search continues into the tail. -/
theorem find?_append_none {α : Type} (p : α → Bool) (l1 l2 : List α)
    (h : l1.find? p = none) : (l1 ++ l2).find? p = l2.find? p := by
  rw [List.find?_append, h, Option.none_or]

/-- In a list with pairwise-distinct token hashes, a member whose hash
every match shares is the unique search result. -/
theorem find?_of_pairwise_hash (p : SessionRow → Bool) :
    ∀ (l : List SessionRow),
      l.Pairwise (fun x y => x.token_hash ≠ y.token_hash) →
      ∀ s, s ∈ l → p s = true →
      (∀ x, p x = true → x.token_hash = s.token_hash) →
      l.find? p = some s
  | [], _, s, hs, _, _ => absurd hs (List.not_mem_nil s)
  | b :: t, hpair, s, hs, hps, hkey => by
      rcases List.mem_cons.mp hs with rfl | hst
      · simp [List.find?_cons, hps]
      · have hb : p b = false := by
          rcases Bool.eq_false_or_eq_true (p b) with h | h
          · exact absurd (hkey b h) ((List.pairwise_cons.mp hpair).1 s hst)
          · exact h
        simp only [List.find?_cons, hb]
        exact find?_of_pairwise_hash p t (List.pairwise_cons.mp hpair).2 s hst hps hkey

/-- Searching by id is unaffected by an id-preserving rewrite of the rows. -/
theorem find?_map_id_preserving (l : List UserRow) (f : UserRow → UserRow)
    (hf : ∀ x, (f x).id = x.id) (uid : String) :
    (l.map f).find? (fun x => x.id == uid) =
      (l.find? (fun x => x.id == uid)).map f := by
  rw [List.find?_map]
  have h : ((fun x : UserRow => x.id == uid) ∘ f) = fun x : UserRow => x.id == uid := by
    funext x
    simp [Function.comp, hf x]
  rw [h]

/-- Session resolution succeeds exactly through the matched row and an
enabled joined user. -/
theorem getUserBySession_some (digest : String → String) (db : DB)
    (tok : String) (now : Int) (s : SessionRow) (u : UserRow)
    (hs : db.sessions.find? (fun x =>
      x.token_hash == digest tok && decide (now < x.expires_at)) = some s)
    (hu : db.users.find? (fun x => x.id == s.user_id) = some u)
    (hd : u.disabled = false) :
    getUserBySession digest db (some tok) now = some u := by
  simp only [getUserBySession, hs, Option.some_bind, hu, hd]
  simp

theorem getUserBySession_none_of_no_session (digest : String → String)
    (db : DB) (tok : String) (now : Int)
    (hs : db.sessions.find? (fun x =>
      x.token_hash == digest tok && decide (now < x.expires_at)) = none) :
    getUserBySession digest db (some tok) now = none := by
  simp only [getUserBySession, hs, Option.none_bind]

theorem getUserBySession_none_of_disabled (digest : String → String)
    (db : DB) (tok : String) (now : Int) (s : SessionRow) (u : UserRow)
    (hs : db.sessions.find? (fun x =>
      x.token_hash == digest tok && decide (now < x.expires_at)) = some s)
    (hu : db.users.find? (fun x => x.id == s.user_id) = some u)
    (hd : u.disabled = true) :
    getUserBySession digest db (some tok) now = none := by
  simp only [getUserBySession, hs, Option.some_bind, hu, hd]
  simp

theorem getUserBySession_none_of_no_user (digest : String → String)
    (db : DB) (tok : String) (now : Int) (s : SessionRow)
    (hs : db.sessions.find? (fun x =>
      x.token_hash == digest tok && decide (now < x.expires_at)) = some s)
    (hu : db.users.find? (fun x => x.id == s.user_id) = none) :
    getUserBySession digest db (some tok) now = none := by
  simp only [getUserBySession, hs, Option.some_bind, hu]


/-- C2: `createSession` persists a row with `expires_at = now + ttl` and
`getUserBySession` compares strictly: created at `now = 1000` with
`ttl = 60` the stored row has `expires_at = 1060`; resolving at `1059`
returns the owning user and resolving at `1061` returns `none`. -/
theorem c2_create_session_expiry (digest : String → String) (db : DB)
    (u : UserRow) (tokenBytes : List Nat)
    (hu : db.users.find? (fun x => x.id == "u1") = some u)
    (hdis : u.disabled = false)
    (hfresh : ∀ s ∈ db.sessions, s.token_hash ≠ digest (base64Url tokenBytes)) :
    ∃ db2 raw,
      createSession digest db tokenBytes "u1" 60 1000 = (db2, raw) ∧
      (∃ s ∈ db2.sessions, s.token_hash = digest raw ∧ s.user_id = "u1" ∧
        s.expires_at = 1060 ∧ s.created_at = 1000) ∧
      getUserBySession digest db2 (some raw) 1059 = some u ∧
      getUserBySession digest db2 (some raw) 1061 = none := by
  have hold : ∀ (n : Int), db.sessions.find? (fun s =>
      s.token_hash == digest (base64Url tokenBytes) &&
        decide (n < s.expires_at)) = none := by
    intro n
    rw [List.find?_eq_none]
    intro s hs
    simp only [Bool.and_eq_true, beq_iff_eq, decide_eq_true_eq, not_and]
    intro h1
    exact absurd h1 (hfresh s hs)
  have hrow1059 : (db.sessions ++
      [(⟨digest (base64Url tokenBytes), "u1", 1000 + 60, 1000⟩ : SessionRow)]).find?
        (fun x => x.token_hash == digest (base64Url tokenBytes) &&
          decide ((1059 : Int) < x.expires_at)) =
      some ⟨digest (base64Url tokenBytes), "u1", 1000 + 60, 1000⟩ := by
    rw [find?_append_none _ _ _ (hold 1059)]
    simp [List.find?_cons]
  have hrow1061 : (db.sessions ++
      [(⟨digest (base64Url tokenBytes), "u1", 1000 + 60, 1000⟩ : SessionRow)]).find?
        (fun x => x.token_hash == digest (base64Url tokenBytes) &&
          decide ((1061 : Int) < x.expires_at)) = none := by
    rw [find?_append_none _ _ _ (hold 1061)]
    simp [List.find?_cons]
  refine ⟨_, _, rfl, ?_, ?_, ?_⟩
  · exact ⟨⟨digest (base64Url tokenBytes), "u1", 1000 + 60, 1000⟩,
      by simp [createSession], rfl, rfl, by norm_num, rfl⟩
  · exact getUserBySession_some digest _ _ _
      ⟨digest (base64Url tokenBytes), "u1", 1000 + 60, 1000⟩ u hrow1059 hu hdis
  · exact getUserBySession_none_of_no_session digest _ _ _ hrow1061


/-- C3: with pairwise-distinct stored token hashes, a session resolves to
an identity exactly when a stored row matches the token's digest with
`expires_at > now` and joins to a non-disabled user; consequently, marking
the owner disabled after creation makes the same resolution return
`none`. -/
theorem c3_session_validity_and_lockout (digest : String → String) (db : DB)
    (tok : String) (now : Int) (u : UserRow)
    (hpair : db.sessions.Pairwise (fun a b => a.token_hash ≠ b.token_hash)) :
    (getUserBySession digest db (some tok) now = some u ↔
      ∃ s ∈ db.sessions, s.token_hash = digest tok ∧ now < s.expires_at ∧
        db.users.find? (fun x => x.id == s.user_id) = some u ∧
        u.disabled = false) ∧
    (getUserBySession digest db (some tok) now = some u →
      getUserBySession digest (adminSetDisabled db u.id true) (some tok) now = none) := by
  have hfwd : getUserBySession digest db (some tok) now = some u →
      ∃ s ∈ db.sessions, s.token_hash = digest tok ∧ now < s.expires_at ∧
        db.users.find? (fun x => x.id == s.user_id) = some u ∧
        u.disabled = false := by
    intro h
    rcases hf : db.sessions.find? (fun x =>
        x.token_hash == digest tok && decide (now < x.expires_at)) with _ | s
    · rw [getUserBySession_none_of_no_session digest db tok now hf] at h
      cases h
    · rcases hg : db.users.find? (fun x => x.id == s.user_id) with _ | u2
      · rw [getUserBySession_none_of_no_user digest db tok now s hf hg] at h
        cases h
      · rcases Bool.eq_false_or_eq_true u2.disabled with hd | hd
        · rw [getUserBySession_none_of_disabled digest db tok now s u2 hf hg hd] at h
          cases h
        · have := getUserBySession_some digest db tok now s u2 hf hg hd
          rw [this] at h
          have hu2 : u2 = u := Option.some.inj h
          subst hu2
          have hps := List.find?_some hf
          simp only [Bool.and_eq_true, beq_iff_eq, decide_eq_true_eq] at hps
          exact ⟨s, List.mem_of_find?_eq_some hf, hps.1, hps.2, hg, hd⟩
  constructor
  · constructor
    · exact hfwd
    · rintro ⟨s, hmem, hhash, hexp, hfu, hdis⟩
      have hf : db.sessions.find? (fun x =>
          x.token_hash == digest tok && decide (now < x.expires_at)) = some s := by
        refine find?_of_pairwise_hash _ db.sessions hpair s hmem ?_ ?_
        · simp [hhash, hexp]
        · intro x hx
          simp only [Bool.and_eq_true, beq_iff_eq, decide_eq_true_eq] at hx
          rw [hx.1, hhash]
      exact getUserBySession_some digest db tok now s u hf hfu hdis
  · intro h
    rcases hfwd h with ⟨s, hmem, hhash, hexp, hfu, hdis⟩
    have hf : db.sessions.find? (fun x =>
        x.token_hash == digest tok && decide (now < x.expires_at)) = some s := by
      refine find?_of_pairwise_hash _ db.sessions hpair s hmem ?_ ?_
      · simp [hhash, hexp]
      · intro x hx
        simp only [Bool.and_eq_true, beq_iff_eq, decide_eq_true_eq] at hx
        rw [hx.1, hhash]
    have hid : ∀ x : UserRow,
        ((if x.id == u.id then { x with disabled := true } else x) : UserRow).id = x.id := by
      intro x
      by_cases hx : x.id == u.id
      · simp [hx]
      · simp [hx]
    have hfu2 : (adminSetDisabled db u.id true).users.find?
        (fun x => x.id == s.user_id) =
        some { u with disabled := true } := by
      show (db.users.map (fun x =>
          if x.id == u.id then { x with disabled := true } else x)).find?
          (fun x => x.id == s.user_id) = some { u with disabled := true }
      rw [find?_map_id_preserving _ _ hid, hfu]
      have hself : (u.id == u.id) = true := beq_self_eq_true u.id
      simp [hself]
    exact getUserBySession_none_of_disabled digest _ tok now s
      { u with disabled := true } hf hfu2 rfl


/-- C8: `destroySession` deletes exactly the rows whose `token_hash`
matches the digest of the presented token; it is idempotent, a call with
no matching row (in particular a repeat call) leaves the store unchanged,
and the other tables are never touched. -/
theorem c8_destroy_session_idempotent (digest : String → String) (db : DB)
    (tok : String) :
    destroySession digest (destroySession digest db (some tok)) (some tok) =
      destroySession digest db (some tok) ∧
    (∀ s ∈ (destroySession digest db (some tok)).sessions,
      s.token_hash ≠ digest tok) ∧
    ((∀ s ∈ db.sessions, s.token_hash ≠ digest tok) →
      destroySession digest db (some tok) = db) ∧
    (destroySession digest db (some tok)).users = db.users ∧
    (destroySession digest db (some tok)).reset_tokens = db.reset_tokens := by
  refine ⟨?_, ?_, ?_, rfl, rfl⟩
  · simp only [destroySession]
    rw [List.filter_filter]
    simp
  · simp only [destroySession]
    intro s hs
    have hmem := List.mem_filter.mp hs
    simpa using hmem.2
  · intro h
    simp only [destroySession]
    have hself : db.sessions.filter (fun s => !(s.token_hash == digest tok)) =
        db.sessions := by
      rw [List.filter_eq_self]
      intro a ha
      simpa using h a ha
    rw [hself]


/-- For a well-formed email the request handler always answers with the
same success value, whatever the store holds. -/
theorem requestReset_ok (digest : String → String) (db : DB)
    (emailInput : String) (tokenBytes : List Nat) (envResetTtl : Option Int)
    (now : Int) (hvalid : validEmail (jsToLower (jsTrim emailInput)) = true) :
    ∃ db2, requestReset digest db emailInput tokenBytes envResetTtl now =
      Except.ok db2 := by
  simp only [requestReset, hvalid, Bool.not_true, Bool.false_eq_true, if_false]
  rcases hf : db.users.find? (fun u => u.email == jsToLower (jsTrim emailInput)) with _ | user
  · rw [hf]
    exact ⟨db, rfl⟩
  · rw [hf]
    rcases Bool.eq_false_or_eq_true user.disabled with hd | hd
    · exact ⟨db, by simp [hd]⟩
    · refine ⟨{ db with reset_tokens := db.reset_tokens ++ [{ token_hash := digest (base64Url tokenBytes), user_id := user.id, expires_at := now + safeInt envResetTtl 3600, created_at := now }] }, ?_⟩
      simp [hd]

/-- C5: for every syntactically valid email, `requestReset` returns the
same success response whether or not a matching user exists and whether or
not that user is disabled; when the user is absent or disabled the store
is unchanged (no token row is created) and no error is raised. -/
theorem c5_request_reset_anti_enumeration (digest : String → String)
    (db dbB : DB) (emailInput : String) (tokenBytes tokenBytes2 : List Nat)
    (envResetTtl : Option Int) (now now2 : Int)
    (hvalid : validEmail (jsToLower (jsTrim emailInput)) = true) :
    (requestReset digest db emailInput tokenBytes envResetTtl now).map
      (fun _ => ()) = Except.ok () ∧
    (requestReset digest db emailInput tokenBytes envResetTtl now).map
        (fun _ => ()) =
      (requestReset digest dbB emailInput tokenBytes2 envResetTtl now2).map
        (fun _ => ()) ∧
    ((db.users.find? (fun x => x.email == jsToLower (jsTrim emailInput)) = none ∨
      (∃ x, db.users.find? (fun y => y.email == jsToLower (jsTrim emailInput)) =
          some x ∧ x.disabled = true)) →
      requestReset digest db emailInput tokenBytes envResetTtl now =
        Except.ok db) := by
  have hobs : ∀ (d : DB) (tb : List Nat) (n : Int),
      (requestReset digest d emailInput tb envResetTtl n).map (fun _ => ()) =
        Except.ok () := by
    intro d tb n
    rcases requestReset_ok digest d emailInput tb envResetTtl n hvalid with ⟨d2, h2⟩
    rw [h2]
    rfl
  refine ⟨hobs db tokenBytes now, ?_, ?_⟩
  · rw [hobs db tokenBytes now, hobs dbB tokenBytes2 now2]
  · intro h
    simp only [requestReset, hvalid, Bool.not_true, Bool.false_eq_true, if_false]
    rcases h with hnone | ⟨x, hx, hdis⟩
    · rw [hnone]
    · rw [hx]
      simp [hdis]


/-- C4: `confirmReset` answers `Token invalid/expired` when no stored row
matches the presented token's digest or the row is expired
(`expires_at <= now`); and after a successful confirmation the row is
deleted, so repeating the call with the identical raw token (and a
well-formed new password) fails with the same error. -/
theorem c4_reset_token_single_use (digest : String → String)
    (kdf : String → List Nat → Int → List Nat) (envIters : Option Int)
    (hasPassIters : Bool) (db : DB) (tokenInput newPw newPw2 : String)
    (salt salt2 : List Nat) (now now2 : Int)
    (hpw2 : 8 ≤ newPw2.length) :
    (((jsTrim tokenInput == "") = false → ¬ newPw.length < 8 →
      (db.reset_tokens.find? (fun r =>
          r.token_hash == digest (jsTrim tokenInput)) = none ∨
        (∃ rt, db.reset_tokens.find? (fun r =>
            r.token_hash == digest (jsTrim tokenInput)) = some rt ∧
          rt.expires_at ≤ now)) →
      confirmReset digest kdf envIters hasPassIters db tokenInput newPw salt now =
        Except.error "Token invalid/expired")) ∧
    (∀ db2, confirmReset digest kdf envIters hasPassIters db tokenInput newPw
        salt now = Except.ok db2 →
      confirmReset digest kdf envIters hasPassIters db2 tokenInput newPw2
        salt2 now2 = Except.error "Token invalid/expired") := by
  constructor
  · intro htok hpw habs
    rcases habs with hnone | ⟨rt, hrt, hexp⟩
    · simp [confirmReset, htok, hpw, hnone]
    · simp [confirmReset, htok, hpw, hrt, hexp]
  · intro db2 h
    by_cases h1 : (jsTrim tokenInput == "") = true
    · exfalso
      simp [confirmReset, h1] at h
    by_cases h2 : newPw.length < 8
    · exfalso
      simp [confirmReset, h1, h2] at h
    rcases hf : db.reset_tokens.find? (fun r =>
        r.token_hash == digest (jsTrim tokenInput)) with _ | rt
    · exfalso
      simp [confirmReset, h1, h2, hf] at h
    by_cases h3 : rt.expires_at ≤ now
    · exfalso
      simp [confirmReset, h1, h2, hf, h3] at h
    rcases hh : pbkdf2HashBase64Url kdf newPw salt (pbkdf2Iters envIters) with e | ph
    · exfalso
      simp [confirmReset, h1, h2, hf, h3, hh] at h
    have hdb2 : db2.reset_tokens = db.reset_tokens.filter (fun r =>
        !(r.token_hash == digest (jsTrim tokenInput))) := by
      simp only [confirmReset, h1, h2, hf, h3, hh] at h
      simp [h1, h2, h3] at h
      rw [← h]
    have hnone : db2.reset_tokens.find? (fun r =>
        r.token_hash == digest (jsTrim tokenInput)) = none := by
      rw [hdb2, List.find?_eq_none]
      intro r hr
      simpa using (List.mem_filter.mp hr).2
    have hpw2n : ¬ newPw2.length < 8 := by omega
    simp [confirmReset, h1, hpw2n, hnone]


/-- The clamped iteration count never exceeds the ceiling. -/
theorem pbkdf2Iters_le_max (envIters : Option Int) :
    pbkdf2Iters envIters ≤ PBKDF2_MAX_ITERS := by
  unfold pbkdf2Iters clampPbkdf2Iters
  exact min_le_left _ _

/-- Under the ceiling the hasher returns the encoded derived bits. -/
theorem pbkdf2HashBase64Url_ok (kdf : String → List Nat → Int → List Nat)
    (pw : String) (salt : List Nat) (envIters : Option Int) :
    pbkdf2HashBase64Url kdf pw salt (pbkdf2Iters envIters) =
      Except.ok (base64Url (kdf pw salt (pbkdf2Iters envIters))) := by
  unfold pbkdf2HashBase64Url
  rw [if_neg (not_lt.mpr (pbkdf2Iters_le_max envIters))]

/-- C9: `confirmReset` never consults the `disabled` flag: a disabled user
holding a valid unexpired reset token still gets the password replaced
(fresh salt and hash stored), even though `requestReset` for that same
disabled user issues no token and leaves the store unchanged. -/
theorem c9_confirm_reset_ignores_disabled (digest : String → String)
    (kdf : String → List Nat → Int → List Nat) (envIters : Option Int)
    (hasPassIters : Bool) (db : DB) (tokenInput newPw emailInput : String)
    (salt tokenBytes : List Nat) (envResetTtl : Option Int) (now now2 : Int)
    (rt : ResetTokenRow) (u : UserRow)
    (htok : (jsTrim tokenInput == "") = false)
    (hpw : ¬ newPw.length < 8)
    (hfind : db.reset_tokens.find? (fun r =>
      r.token_hash == digest (jsTrim tokenInput)) = some rt)
    (hexp : ¬ rt.expires_at ≤ now)
    (hu : db.users.find? (fun x => x.id == rt.user_id) = some u)
    (hdis : u.disabled = true)
    (hvalid : validEmail (jsToLower (jsTrim emailInput)) = true)
    (hemail : db.users.find? (fun x =>
      x.email == jsToLower (jsTrim emailInput)) = some u) :
    (∃ db2, confirmReset digest kdf envIters hasPassIters db tokenInput newPw
        salt now = Except.ok db2 ∧
      ∃ u2, db2.users.find? (fun x => x.id == rt.user_id) = some u2 ∧
        u2.pass_salt = base64Url salt ∧
        u2.pass_hash = base64Url (kdf newPw salt (pbkdf2Iters envIters)) ∧
        u2.disabled = true) ∧
    requestReset digest db emailInput tokenBytes envResetTtl now2 =
      Except.ok db := by
  constructor
  · have hok := pbkdf2HashBase64Url_ok kdf newPw salt envIters
    have hcurrent := List.find?_some hu
    have hconf : confirmReset digest kdf envIters hasPassIters db tokenInput
        newPw salt now = Except.ok { db with
          users := db.users.map (fun x => if x.id == rt.user_id then (if hasPassIters then { x with pass_salt := base64Url salt, pass_hash := base64Url (kdf newPw salt (pbkdf2Iters envIters)), pass_iters := some (pbkdf2Iters envIters) } else { x with pass_salt := base64Url salt, pass_hash := base64Url (kdf newPw salt (pbkdf2Iters envIters)) }) else x),
          reset_tokens := db.reset_tokens.filter (fun r => !(r.token_hash == digest (jsTrim tokenInput))) } := by
      simp [confirmReset, htok, hpw, hfind, hexp, hok]
    have hid : ∀ x : UserRow,
        ((if x.id == rt.user_id then (if hasPassIters then { x with pass_salt := base64Url salt, pass_hash := base64Url (kdf newPw salt (pbkdf2Iters envIters)), pass_iters := some (pbkdf2Iters envIters) } else { x with pass_salt := base64Url salt, pass_hash := base64Url (kdf newPw salt (pbkdf2Iters envIters)) }) else x) : UserRow).id = x.id := by
      intro x
      by_cases hx : (x.id == rt.user_id) = true
      · rcases Bool.eq_false_or_eq_true hasPassIters with hp | hp <;> simp [hx, hp]
      · simp [hx]
    refine ⟨_, hconf, ?_⟩
    have hmap := find?_map_id_preserving db.users _ hid rt.user_id
    simp only [hmap, hu, Option.map_some]
    refine ⟨_, rfl, ?_, ?_, ?_⟩
    · rcases Bool.eq_false_or_eq_true hasPassIters with hp | hp <;>
        simp [hcurrent, hp]
    · rcases Bool.eq_false_or_eq_true hasPassIters with hp | hp <;>
        simp [hcurrent, hp]
    · rcases Bool.eq_false_or_eq_true hasPassIters with hp | hp <;>
        simp [hcurrent, hp, hdis]
  · simp [requestReset, hvalid, hemail, hdis]


/-- C7: a successful signup appends exactly one user row; its role is
`admin` precisely when the users table was empty (the `COUNT(*)` taken
before the insert was zero), and `user` otherwise. -/
theorem c7_first_signup_admin (digest : String → String)
    (kdf : String → List Nat → Int → List Nat) (envIters : Option Int)
    (hasPassIters : Bool) (envAliasLimit envSessionTtl : Option Int)
    (db : DB) (usernameInput emailInput pw : String) (salt : List Nat)
    (newId : String) (sessionTokenBytes : List Nat) (now : Int)
    (db2 : DB) (token : String)
    (hok : signup digest kdf envIters hasPassIters envAliasLimit envSessionTtl
      db usernameInput emailInput pw salt newId sessionTokenBytes now =
      Except.ok (db2, token)) :
    ∃ newUser : UserRow,
      db2.users = db.users ++ [newUser] ∧ newUser.id = newId ∧
      newUser.role = (if db.users.isEmpty then "admin" else "user") ∧
      (newUser.role = "admin" ↔ db.users = []) := by
  by_cases h1 : validUsername (jsToLower (jsTrim usernameInput)) = true
  case neg =>
    exfalso
    simp [signup, h1] at hok
  by_cases h2 : validEmail (jsToLower (jsTrim emailInput)) = true
  case neg =>
    exfalso
    simp [signup, h1, h2] at hok
  by_cases h3 : pw.length < 8
  case pos =>
    exfalso
    simp [signup, h1, h2, h3] at hok
  rcases hh : pbkdf2HashBase64Url kdf pw salt (pbkdf2Iters envIters) with e | ph
  · exfalso
    simp [signup, h1, h2, h3, hh] at hok
  by_cases hdup : db.users.any (fun x =>
      x.username == jsToLower (jsTrim usernameInput) ||
      x.email == jsToLower (jsTrim emailInput)) = true
  case pos =>
    exfalso
    simp [signup, h1, h2, h3, hh, hdup] at hok
  have husers : db2.users = db.users ++
      [{ id := newId, username := jsToLower (jsTrim usernameInput),
         email := jsToLower (jsTrim emailInput), pass_salt := base64Url salt,
         pass_hash := ph,
         pass_iters := if hasPassIters then some (pbkdf2Iters envIters) else none,
         role := if db.users = [] then "admin" else "user",
         alias_limit := safeInt envAliasLimit 3, disabled := false,
         created_at := now }] := by
    simp [signup, h1, h2, h3, hh, hdup, createSession] at hok
    rw [← hok.1]
  refine ⟨_, husers, rfl, ?_, ?_⟩
  · by_cases hdb : db.users = []
    · simp [hdb]
    · have hne : db.users.isEmpty = false := by
        simp [List.isEmpty_iff, hdb]
      simp [hdb, hne]
  · by_cases hdb : db.users = []
    · simp [hdb]
    · simp [hdb]

theorem c2_create_session_expiry_witness :
    ∃ db2 raw,
      createSession (fun t => t) ⟨[aliceRow], [], []⟩ [] "u1" 60 1000 = (db2, raw) ∧
      (∃ s ∈ db2.sessions, s.token_hash = raw ∧ s.user_id = "u1" ∧
        s.expires_at = 1060 ∧ s.created_at = 1000) ∧
      getUserBySession (fun t => t) db2 (some raw) 1059 = some aliceRow ∧
      getUserBySession (fun t => t) db2 (some raw) 1061 = none :=
  c2_create_session_expiry (fun t => t) ⟨[aliceRow], [], []⟩ aliceRow []
    (by decide) (by decide) (by simp)

theorem c3_session_validity_and_lockout_witness :
    (getUserBySession (fun t => t) ⟨[aliceRow], [⟨"t", "u1", 10, 0⟩], []⟩
        (some "t") 5 = some aliceRow ↔
      ∃ s ∈ (⟨[aliceRow], [⟨"t", "u1", 10, 0⟩], []⟩ : DB).sessions,
        s.token_hash = "t" ∧ (5 : Int) < s.expires_at ∧
        (⟨[aliceRow], [⟨"t", "u1", 10, 0⟩], []⟩ : DB).users.find?
          (fun x => x.id == s.user_id) = some aliceRow ∧
        aliceRow.disabled = false) ∧
    (getUserBySession (fun t => t) ⟨[aliceRow], [⟨"t", "u1", 10, 0⟩], []⟩
        (some "t") 5 = some aliceRow →
      getUserBySession (fun t => t)
        (adminSetDisabled ⟨[aliceRow], [⟨"t", "u1", 10, 0⟩], []⟩ aliceRow.id true)
        (some "t") 5 = none) :=
  c3_session_validity_and_lockout (fun t => t)
    ⟨[aliceRow], [⟨"t", "u1", 10, 0⟩], []⟩ "t" 5 aliceRow (by simp)

theorem c4_reset_token_single_use_witness :
    (((jsTrim "t" == "") = false → ¬ "password1".length < 8 →
      ((⟨[], [], [⟨"t", "u1", 10, 0⟩]⟩ : DB).reset_tokens.find? (fun r =>
          r.token_hash == jsTrim "t") = none ∨
        (∃ rt, (⟨[], [], [⟨"t", "u1", 10, 0⟩]⟩ : DB).reset_tokens.find? (fun r =>
            r.token_hash == jsTrim "t") = some rt ∧
          rt.expires_at ≤ (3 : Int))) →
      confirmReset (fun t => t) (fun _ _ _ => []) none false
          ⟨[], [], [⟨"t", "u1", 10, 0⟩]⟩ "t" "password1" [] 3 =
        Except.error "Token invalid/expired")) ∧
    (∀ db2, confirmReset (fun t => t) (fun _ _ _ => []) none false
        ⟨[], [], [⟨"t", "u1", 10, 0⟩]⟩ "t" "password1" [] 3 = Except.ok db2 →
      confirmReset (fun t => t) (fun _ _ _ => []) none false db2 "t" "password2"
        [] 3 = Except.error "Token invalid/expired") :=
  c4_reset_token_single_use (fun t => t) (fun _ _ _ => []) none false
    ⟨[], [], [⟨"t", "u1", 10, 0⟩]⟩ "t" "password1" "password2" [] [] 3 3
    (by decide)

theorem c5_request_reset_anti_enumeration_witness :
    (requestReset (fun t => t) ⟨[aliceRow], [], []⟩ "alice@example.com" [] none 0).map
      (fun _ => ()) = Except.ok () ∧
    (requestReset (fun t => t) ⟨[aliceRow], [], []⟩ "alice@example.com" [] none 0).map
        (fun _ => ()) =
      (requestReset (fun t => t) ⟨[], [], []⟩ "alice@example.com" [] none 0).map
        (fun _ => ()) ∧
    (((⟨[aliceRow], [], []⟩ : DB).users.find? (fun x =>
        x.email == jsToLower (jsTrim "alice@example.com")) = none ∨
      (∃ x, (⟨[aliceRow], [], []⟩ : DB).users.find? (fun y =>
          y.email == jsToLower (jsTrim "alice@example.com")) = some x ∧
        x.disabled = true)) →
      requestReset (fun t => t) ⟨[aliceRow], [], []⟩ "alice@example.com" [] none 0 =
        Except.ok ⟨[aliceRow], [], []⟩) :=
  c5_request_reset_anti_enumeration (fun t => t) ⟨[aliceRow], [], []⟩
    ⟨[], [], []⟩ "alice@example.com" [] [] none 0 0 (by decide)

theorem c7_first_signup_admin_witness :
    ∃ newUser : UserRow,
      (⟨[⟨"id1", "alice", "alice@example.com", "", "", none, "admin", 3, false, 0⟩],
        [⟨"", "id1", 1209600, 0⟩], []⟩ : DB).users = [] ++ [newUser] ∧
      newUser.id = "id1" ∧
      newUser.role = (if ([] : List UserRow).isEmpty then "admin" else "user") ∧
      (newUser.role = "admin" ↔ ([] : List UserRow) = []) :=
  c7_first_signup_admin (fun t => t) (fun _ _ _ => []) none false none none
    ⟨[], [], []⟩ "alice" "alice@example.com" "longenough1" [] "id1" [] 0
    ⟨[⟨"id1", "alice", "alice@example.com", "", "", none, "admin", 3, false, 0⟩],
      [⟨"", "id1", 1209600, 0⟩], []⟩ "" (by rfl)

theorem c9_confirm_reset_ignores_disabled_witness :
    (∃ db2, confirmReset (fun t => t) (fun _ _ _ => []) none false
        ⟨[bobRow], [], [⟨"t", "u2", 10, 0⟩]⟩ "t" "password" [] 0 = Except.ok db2 ∧
      ∃ u2, db2.users.find? (fun x => x.id == (⟨"t", "u2", 10, 0⟩ : ResetTokenRow).user_id) = some u2 ∧
        u2.pass_salt = base64Url [] ∧
        u2.pass_hash = base64Url [] ∧
        u2.disabled = true) ∧
    requestReset (fun t => t) ⟨[bobRow], [], [⟨"t", "u2", 10, 0⟩]⟩
      "bob@example.com" [] none 0 = Except.ok ⟨[bobRow], [], [⟨"t", "u2", 10, 0⟩]⟩ :=
  c9_confirm_reset_ignores_disabled (fun t => t) (fun _ _ _ => []) none false
    ⟨[bobRow], [], [⟨"t", "u2", 10, 0⟩]⟩ "t" "password" "bob@example.com" [] []
    none 0 0 ⟨"t", "u2", 10, 0⟩ bobRow (by decide) (by decide) (by decide)
    (by decide) (by decide) (by decide) (by decide) (by decide)

end Mael
